import Mathlib

/-!
# Verification of the maniparse manifest model and matrix-expansion engine

Shallow embedding of `src/manifest.rs` (crate `maniparse`): the `Version`
scalar type, the `Flavours` untagged enum and its serde resolution order,
the `Manifest` aggregate with its accessors (`tools`, `export_keys`,
`exports_for`, `flavors`), and the matrix-expansion helpers
(`one`/`two`/`three`/`four`) built on `iproduct!` and mustache templating.

Modelling conventions:
* Rust `HashMap` values are embedded as association lists
  (`List (key × value)`); the list order models the iteration order the
  hash map happens to present, which Rust fixes per map instance but does
  not determine from the source document.
* Code that can panic (slice/`Vec` indexing, `Option::unwrap`) is embedded
  in `Option`, with `none` denoting a panic.
* Fallible code (`Result<_, anyhow::Error>`) is embedded in
  `Except String`, carrying the error message.
* `u16` is embedded as `Nat` with explicit `≤ 65535` bounds where the
  width matters; `f32` payloads are embedded by `F32` below.
-/

/-- Model of an `f32` payload (`Version::Float`): either NaN or a finite
value, the latter represented by the rational it denotes.  The non-finite
values other than NaN and the rounding of parsed decimals to binary are
not modelled; no theorem below depends on them. -/
inductive F32 where
  | nan
  | fin (q : ℚ)
deriving DecidableEq

/-- `Version` from `src/manifest.rs` lines 24-30: an untagged union of a
string, an `f32` and a `u16`, in that declaration order (the order
matters both for serde resolution and for the derived `PartialOrd`). -/
inductive Version where
  | string (s : String)
  | float (f : F32)
  | int (i : Nat)
deriving DecidableEq

/-- Decimal digits of a natural number, most significant first, with a
structural fuel argument so the definition reduces in the kernel; any
fuel above the number itself is sufficient (the quotient by ten shrinks
faster than the fuel). -/
def natToDigits (fuel n : Nat) : List Char :=
  match fuel with
  | 0 => []
  | fuel + 1 =>
    if n < 10 then [Nat.digitChar n]
    else natToDigits fuel (n / 10) ++ [Nat.digitChar (n % 10)]

/-- Decimal rendering of a natural number.  Models the output of Rust's
`Display` for unsigned integers. -/
def natRepr (n : Nat) : String := String.mk (natToDigits (n + 1) n)

/-- Rust `Display` for `f32` via `"{}"`: integral values print without a
decimal point (`7.0` prints as `"7"`), NaN prints as `"NaN"`.  The
shortest-roundtrip rendering of non-integral values is not modelled
exactly; no theorem below evaluates it. -/
def F32.display : F32 → String
  | .nan => "NaN"
  | .fin q => if q.den = 1 then (if q.num < 0 then "-" ++ natRepr q.num.natAbs else natRepr q.num.natAbs) else toString q

/-- `impl fmt::Display for Version` (`src/manifest.rs` lines 32-45): each
variant renders as its natural textual form, with no quoting. -/
def Version.display : Version → String
  | .string s => s
  | .float f => f.display
  | .int i => natRepr i

/-- `PartialOrd::partial_cmp` on `f32`: any comparison involving NaN is
`None`; finite values compare numerically. -/
def F32.pcmp : F32 → F32 → Option Ordering
  | .fin a, .fin b => some (if a < b then .lt else if a = b then .eq else .gt)
  | _, _ => none

/-- `PartialEq::eq` on `f32`: NaN is equal to nothing, finite values
compare numerically. -/
def F32.eqv : F32 → F32 → Bool
  | .fin a, .fin b => a = b
  | _, _ => false

/-- The derived `PartialOrd::partial_cmp` on `Version`: values of the
same variant compare by their payloads; values of different variants
compare by variant declaration position (`String` < `Float` < `Int`),
which is how Rust's `derive(PartialOrd)` treats cross-variant
comparisons (it compares discriminants first). -/
def Version.pcmp : Version → Version → Option Ordering
  | .string a, .string b => some (compare a b)
  | .string _, .float _ => some .lt
  | .string _, .int _ => some .lt
  | .float _, .string _ => some .gt
  | .float a, .float b => F32.pcmp a b
  | .float _, .int _ => some .lt
  | .int _, .string _ => some .gt
  | .int _, .float _ => some .gt
  | .int a, .int b => some (compare a b)

/-- The derived `PartialEq::eq` on `Version`: payload equality within a
variant, never equal across variants. -/
def Version.eqv : Version → Version → Bool
  | .string a, .string b => a == b
  | .float a, .float b => F32.eqv a b
  | .int a, .int b => a == b
  | _, _ => false

/-- `HashMap::get` on an association list: the value at the first entry
whose key matches, if any. -/
def lookupKV {α : Type} (m : List (String × α)) (k : String) : Option α :=
  (m.find? (fun p => p.1 == k)).map Prod.snd

/-- `HashMap::contains_key` on an association list. -/
def containsKeyKV {α : Type} (m : List (String × α)) (k : String) : Bool :=
  m.any (fun p => p.1 == k)

/-- `type RequirementMap = HashMap<String, Version>` (line 15). -/
abbrev RequirementMap := List (String × Version)

/-- `RecipeInner` (`src/manifest.rs` lines 47-54): every field optional. -/
structure RecipeInner where
  requires : Option RequirementMap
  load_requires : Option RequirementMap
  steps : Option (List String)
  contributors : Option (List String)
deriving DecidableEq

/-- `type RecipeMap = HashMap<String, RecipeInner>` (line 56). -/
abbrev RecipeMap := List (String × RecipeInner)

/-- `type ExportsInner = HashMap<String, Vec<String>>` (line 75). -/
abbrev ExportsInner := List (String × List String)

/-- `type ManifestBuildMatrix = HashMap<String,Vec<Version>>` (line 13).
The list order models the iteration order presented by the hash map. -/
abbrev ManifestBuildMatrix := List (String × List Version)

/-- The untagged `Flavours` enum (`src/manifest.rs` lines 77-123), with
its three variants in declaration order: `Recipe`, `Simple`, `Matrix`. -/
inductive Flavours where
  | Recipe (name : String) (recipes : RecipeMap)
      (load_requires build_requires test_requires system_requires : Option RequirementMap)
      (supports platforms sites : Option (List String))
  | Simple (name : String)
      (load_requires build_requires test_requires system_requires : Option RequirementMap)
      (supports platforms sites : Option (List String))
  | Matrix (name : String) (matrix : ManifestBuildMatrix)
      (requires load_requires test_requires build_requires system_requires : Option RequirementMap)
      (supports : Option (List String))
deriving DecidableEq

/-- The `Manifest` aggregate (`src/manifest.rs` lines 125-144). -/
structure Manifest where
  name : String
  version : String
  supports : Option (List String)
  load_requires : Option RequirementMap
  build_requires : Option RequirementMap
  test_requires : Option RequirementMap
  system_requires : Option RequirementMap
  requires : Option RequirementMap
  platforms : Option (List String)
  sites : Option (List String)
  recipes : Option RecipeMap
  flavours : Option (List Flavours)
  exports : Option ExportsInner
deriving DecidableEq

/-- `Manifest::tools` (lines 173-184): if `exports` is present and
contains the key `"tools"`, return `exports.get("tools").unwrap()`;
otherwise the empty list.  The result is wrapped in `Option`, `none`
modelling the panic of the `unwrap`. -/
def Manifest.tools (m : Manifest) : Option (List String) :=
  match m.exports with
  | some exports =>
    if containsKeyKV exports "tools" then
      match lookupKV exports "tools" with
      | some v => some v
      | none => none
    else some []
  | none => some []

/-- `Manifest::export_keys` (lines 186-192): the key set of `exports`
when present. -/
def Manifest.export_keys (m : Manifest) : Option (List String) :=
  match m.exports with
  | some exports => some (exports.map Prod.fst)
  | none => none

/-- `Manifest::exports_for` (lines 194-205).  The outer `Option` models
the panic of the internal `unwrap` (`none` = panic); the inner `Option`
is the function's own result (`some none` = Rust `None`). -/
def Manifest.exports_for (m : Manifest) (key : String) : Option (Option (List String)) :=
  match m.exports with
  | some exports =>
    if containsKeyKV exports key then
      match lookupKV exports key with
      | some v => some (some v)
      | none => none
    else some none
  | none => some none

/-- A compiled mustache template token: a literal character or an
interpolation tag naming a variable. -/
inductive Tok where
  | text (c : Char)
  | var (name : String)
deriving DecidableEq

/-- Index of the first occurrence of the closing delimiter (two
consecutive closing braces) in a character list, if any. -/
def findClose2 : List Char → Option Nat
  | '}' :: '}' :: _ => some 0
  | _ :: rest => (findClose2 rest).map (· + 1)
  | [] => none

/-- Strip leading and trailing whitespace, as mustache does to the
content of an interpolation tag. -/
def trimChars (l : List Char) : List Char :=
  ((l.dropWhile (·.isWhitespace)).reverse.dropWhile (·.isWhitespace)).reverse

/-- Model of `mustache::compile_str` restricted to interpolation tags,
the only mustache feature the manifest name templates use: an opening
double brace starts a tag that must be closed by a double closing brace
(otherwise compilation fails, giving `none`); everything else is literal
text. -/
def tokenizeF (fuel : Nat) : List Char → Option (List Tok)
  | [] => some []
  | '{' :: '{' :: rest =>
    match fuel with
    | 0 => none
    | fuel + 1 =>
      match findClose2 rest with
      | none => none
      | some i =>
        match tokenizeF fuel (rest.drop (i + 2)) with
        | none => none
        | some toks => some (.var (String.mk (trimChars (rest.take i))) :: toks)
  | c :: rest =>
    match fuel with
    | 0 => none
    | fuel + 1 =>
      match tokenizeF fuel rest with
      | none => none
      | some toks => some (.text c :: toks)

/-- `tokenizeF` with its fuel set to the input length, which always
suffices: every step consumes at least one character along with one unit
of fuel, and the empty input needs none. -/
def tokenize (l : List Char) : Option (List Tok) := tokenizeF l.length l

/-- Model of rendering a compiled mustache template against a
string-valued binding map: interpolation of a missing key renders as the
empty string (the crate's non-strict behaviour). -/
def renderToks (toks : List Tok) (ctx : List (String × String)) : String :=
  match toks with
  | [] => ""
  | .text c :: rest => String.mk [c] ++ renderToks rest ctx
  | .var n :: rest => ((lookupKV ctx n).getD "") ++ renderToks rest ctx

/-- `str::replace` specialised to replacing `"row."` by the empty
string: scan left to right, skipping each occurrence of the pattern
without rescanning produced text. -/
def replaceRow : List Char → List Char
  | 'r' :: 'o' :: 'w' :: '.' :: rest => replaceRow rest
  | c :: rest => c :: replaceRow rest
  | [] => []

/-- `template.replace("row.","")` as applied in `one`..`four`. -/
def stripRow (s : String) : String := String.mk (replaceRow s.toList)

/-- The per-combination body shared by `one`..`four` (lines 249-250,
264-265, 279-280, 295-296): strip the `"row."` prefix, compile the
template (failure is an error), and render it against the binding map.
Render failure of the crate's in-memory writer is not reachable. -/
def renderRow (template : String) (ctx : List (String × String)) : Except String String :=
  match tokenize (stripRow template).toList with
  | some toks => .ok (renderToks toks ctx)
  | none => .error "template compile error"

/-- `MapBuilder::insert_str`: later inserts shadow earlier ones, which
consing in front gives under first-match lookup. -/
def insertStr (m : List (String × String)) (k v : String) : List (String × String) :=
  (k, v) :: m

/-- `iproduct!` over two lists: the last list varies fastest. -/
def iproduct2 {α β : Type} (a : List α) (b : List β) : List (α × β) :=
  a.flatMap fun i => b.map fun j => (i, j)

/-- `iproduct!` over three lists: the last list varies fastest. -/
def iproduct3 {α β γ : Type} (a : List α) (b : List β) (c : List γ) : List (α × β × γ) :=
  a.flatMap fun i => b.flatMap fun j => c.map fun k => (i, j, k)

/-- `iproduct!` over four lists: the last list varies fastest. -/
def iproduct4 {α β γ δ : Type} (a : List α) (b : List β) (c : List γ) (d : List δ) :
    List (α × β × γ × δ) :=
  a.flatMap fun i => b.flatMap fun j => c.flatMap fun k => d.map fun l => (i, j, k, l)

/-- Run the loop bodies of `one`..`four` in order, collecting the pushed
strings: a panic (`none`) or an error aborts the loop at that iteration,
discarding the partial vector. -/
def runRows : List (Option (Except String String)) → Option (Except String (List String))
  | [] => some (.ok [])
  | row :: rest =>
    match row with
    | none => none
    | some (.error e) => some (.error e)
    | some (.ok s) =>
      match runRows rest with
      | none => none
      | some (.error e) => some (.error e)
      | some (.ok ss) => some (.ok (s :: ss))

/-- The loop body of `Manifest::one` (lines 245-251): look up `keys[0]`
(an out-of-range index is a panic, `none`), bind it to the `Display`
form of the current value, and render. -/
def rowStep1 (template : String) (keys : List String) (i : Version) :
    Option (Except String String) :=
  match keys[0]? with
  | some k0 => some (renderRow template (insertStr [] k0 i.display))
  | none => none

/-- The loop body of `Manifest::two` (lines 259-266). -/
def rowStep2 (template : String) (keys : List String) (ij : Version × Version) :
    Option (Except String String) :=
  match keys[0]?, keys[1]? with
  | some k0, some k1 =>
    some (renderRow template (insertStr (insertStr [] k0 ij.1.display) k1 ij.2.display))
  | _, _ => none

/-- The loop body of `Manifest::three` (lines 273-281). -/
def rowStep3 (template : String) (keys : List String) (ijk : Version × Version × Version) :
    Option (Except String String) :=
  match keys[0]?, keys[1]?, keys[2]? with
  | some k0, some k1, some k2 =>
    some (renderRow template
      (insertStr (insertStr (insertStr [] k0 ijk.1.display) k1 ijk.2.1.display) k2
        ijk.2.2.display))
  | _, _, _ => none

/-- The loop body of `Manifest::four` (lines 288-297). -/
def rowStep4 (template : String) (keys : List String)
    (ijkl : Version × Version × Version × Version) : Option (Except String String) :=
  match keys[0]?, keys[1]?, keys[2]?, keys[3]? with
  | some k0, some k1, some k2, some k3 =>
    some (renderRow template
      (insertStr
        (insertStr (insertStr (insertStr [] k0 ijkl.1.display) k1 ijkl.2.1.display) k2
          ijkl.2.2.1.display)
        k3 ijkl.2.2.2.display))
  | _, _, _, _ => none

/-- `Manifest::one` (lines 243-254): iterate over a single dimension. -/
def Manifest.one (template : String) (keys : List String) (one : List Version) :
    Option (Except String (List String)) :=
  runRows (one.map (rowStep1 template keys))

/-- `Manifest::two` (lines 257-269): iterate over `iproduct!(one,two)`,
binding `keys[0]` and `keys[1]`. -/
def Manifest.two (template : String) (keys : List String) (one two : List Version) :
    Option (Except String (List String)) :=
  runRows ((iproduct2 one two).map (rowStep2 template keys))

/-- `Manifest::three` (lines 271-284). -/
def Manifest.three (template : String) (keys : List String) (one two three : List Version) :
    Option (Except String (List String)) :=
  runRows ((iproduct3 one two three).map (rowStep3 template keys))

/-- `Manifest::four` (lines 286-300). -/
def Manifest.four (template : String) (keys : List String) (one two three four : List Version) :
    Option (Except String (List String)) :=
  runRows ((iproduct4 one two three four).map (rowStep4 template keys))

/-- The `Flavours::Matrix` arm of `Manifest::flavors` (lines 217-234):
split the matrix's presented entries into `keys` and `par`, then
dispatch on the number of keys.  The four-key arm indexes `par[4]`
exactly as the source does (line 228); `none` models the resulting
index-out-of-bounds panic.  Zero or five and more keys produce the
source's fixed error message. -/
def expandMatrix (name : String) (matrix : ManifestBuildMatrix) :
    Option (Except String (List String)) :=
  match (matrix.map Prod.fst).length with
  | 1 =>
    match (matrix.map Prod.snd)[0]? with
    | some p0 => Manifest.one name (matrix.map Prod.fst) p0
    | none => none
  | 2 =>
    match (matrix.map Prod.snd)[0]?, (matrix.map Prod.snd)[1]? with
    | some p0, some p1 => Manifest.two name (matrix.map Prod.fst) p0 p1
    | _, _ => none
  | 3 =>
    match (matrix.map Prod.snd)[0]?, (matrix.map Prod.snd)[1]?, (matrix.map Prod.snd)[2]? with
    | some p0, some p1, some p2 => Manifest.three name (matrix.map Prod.fst) p0 p1 p2
    | _, _, _ => none
  | 4 =>
    match (matrix.map Prod.snd)[0]?, (matrix.map Prod.snd)[1]?, (matrix.map Prod.snd)[2]?,
        (matrix.map Prod.snd)[4]? with
    | some p0, some p1, some p2, some p4 => Manifest.four name (matrix.map Prod.fst) p0 p1 p2 p4
    | _, _, _, _ => none
  | _ => some (.error "Cannot expand template with more than four arguments")

/-- The loop of `Manifest::flavors` over the declared flavours (lines
212-238): `Recipe` and `Simple` contribute their name verbatim,
`Matrix` delegates to the expansion; a panic or error aborts the loop,
discarding the partial vector. -/
def flavoursLoop : List Flavours → Option (Except String (List String))
  | [] => some (.ok [])
  | fl :: rest =>
    match fl with
    | .Recipe name _ _ _ _ _ _ _ _ =>
      match flavoursLoop rest with
      | none => none
      | some (.error e) => some (.error e)
      | some (.ok ys) => some (.ok (name :: ys))
    | .Simple name _ _ _ _ _ _ _ =>
      match flavoursLoop rest with
      | none => none
      | some (.error e) => some (.error e)
      | some (.ok ys) => some (.ok (name :: ys))
    | .Matrix name matrix _ _ _ _ _ _ =>
      match expandMatrix name matrix with
      | none => none
      | some (.error e) => some (.error e)
      | some (.ok xs) =>
        match flavoursLoop rest with
        | none => none
        | some (.error e) => some (.error e)
        | some (.ok ys) => some (.ok (xs ++ ys))

/-- `Manifest::flavors` (lines 207-240): push the sentinel `"^"` first
when the manifest declares top-level `requires` or `recipes`, then walk
the declared flavours in order. -/
def Manifest.flavors (m : Manifest) : Option (Except String (List String)) :=
  match flavoursLoop (m.flavours.getD []) with
  | none => none
  | some (.error e) => some (.error e)
  | some (.ok xs) =>
    some (.ok ((if m.requires.isSome || m.recipes.isSome then ["^"] else []) ++ xs))

/-- On association lists, `contains_key` succeeding is the same as `get`
finding a value: the guard in `tools`/`exports_for` protects the
`unwrap`. -/
theorem containsKeyKV_iff_lookup {α : Type} (m : List (String × α)) (k : String) :
    containsKeyKV m k = true ↔ (lookupKV m k).isSome := by
  simp [containsKeyKV, lookupKV, List.any_eq_true, List.find?_isSome]

/-- A minimal manifest: no top-level `requires` or `recipes`, no
flavours, no exports. -/
def emptyManifest : Manifest :=
  ⟨"pkg", "1.0", none, none, none, none, none, none, none, none, none, none, none⟩

/-- `emptyManifest` with a top-level `requires` present. -/
def requiresOnlyManifest : Manifest :=
  { emptyManifest with requires := some [("dep", .int 1)] }

/-- C6: `flavors()` emits the sentinel `"^"` first exactly when the
manifest declares top-level `requires` or `recipes`, before the blocks
of the declared flavours; a manifest with neither and no flavours yields
the empty sequence, and one with only top-level `requires` yields
exactly `["^"]`. -/
theorem flavors_sentinel_spec (m : Manifest) :
    m.flavors = (flavoursLoop (m.flavours.getD [])).map (Except.map
      (fun xs => (if m.requires.isSome || m.recipes.isSome then ["^"] else []) ++ xs)) ∧
    emptyManifest.flavors = some (.ok []) ∧
    requiresOnlyManifest.flavors = some (.ok ["^"]) := by
  refine ⟨?_, rfl, rfl⟩
  unfold Manifest.flavors
  rcases flavoursLoop (m.flavours.getD []) with _ | e
  · rfl
  · cases e <;> rfl

/-- A manifest whose single flavour is a matrix with exactly four
dimensions. -/
def fourDimManifest : Manifest :=
  { emptyManifest with
    flavours := some [.Matrix "t-{{row.a}}"
      [("a", [.int 1]), ("b", [.int 2]), ("c", [.int 3]), ("d", [.int 4])]
      none none none none none none] }

/-- C1: the claim says the four-dimension path reads only parameter
slots 0..3 and completes; the code instead evaluates `par[4]` (line
228), an out-of-bounds access, so `flavors()` panics on every manifest
that reaches the four-dimension arm.  The second conjunct shows
`Manifest::four` itself, handed the four supplied lists, expands
correctly — the defect is solely the mis-numbered index at the call
site. -/
theorem flavors_four_dim_panics :
    fourDimManifest.flavors = none ∧
    Manifest.four "t-{{row.a}}" ["a", "b", "c", "d"]
      [.int 1] [.int 2] [.int 3] [.int 4] = some (.ok ["t-1"]) :=
  ⟨rfl, rfl⟩

/-- C8: `export_keys` is present exactly when `exports` is;
`exports_for` returns a present sequence exactly when the category is a
key of `exports` (so a category mapped to an empty list is `some`, an
absent category is `none`); and `tools` is `exports_for "tools"` with
the absent case defaulted to the empty sequence. -/
theorem exports_accessor_contract (m : Manifest) (k : String) :
    (m.export_keys.isSome ↔ m.exports.isSome) ∧
    ((∃ v, m.exports_for k = some (some v)) ↔
      ∃ ex, m.exports = some ex ∧ containsKeyKV ex k = true) ∧
    m.tools = (m.exports_for "tools").map (fun r => r.getD []) := by
  refine ⟨?_, ?_, ?_⟩
  · unfold Manifest.export_keys
    cases m.exports <;> simp
  · unfold Manifest.exports_for
    cases hex : m.exports with
    | none => simp
    | some ex =>
      by_cases hc : containsKeyKV ex k = true
      · have hl := (containsKeyKV_iff_lookup ex k).mp hc
        rcases hlk : lookupKV ex k with _ | v
        · rw [hlk] at hl; simp at hl
        · simp [hc, hlk]
      · simp [hc]
  · unfold Manifest.tools Manifest.exports_for
    cases hex : m.exports with
    | none => rfl
    | some ex =>
      by_cases hc : containsKeyKV ex "tools" = true
      · rcases hlk : lookupKV ex "tools" with _ | v <;> simp [hc, hlk]
      · simp [hc]

/-- C10: `tools` and `exports_for` are total — the `unwrap` inside each
is guarded by the corresponding `contains_key` check, so the panic
branch (`none` in this embedding) is unreachable for every manifest and
every key. -/
theorem exports_accessors_total (m : Manifest) (k : String) :
    m.tools.isSome ∧ (m.exports_for k).isSome := by
  constructor
  · unfold Manifest.tools
    cases hex : m.exports with
    | none => simp
    | some ex =>
      by_cases hc : containsKeyKV ex "tools" = true
      · have hl := (containsKeyKV_iff_lookup ex "tools").mp hc
        rcases hlk : lookupKV ex "tools" with _ | v
        · rw [hlk] at hl; simp at hl
        · simp [hc, hlk]
      · simp [hc]
  · unfold Manifest.exports_for
    cases hex : m.exports with
    | none => simp
    | some ex =>
      by_cases hc : containsKeyKV ex k = true
      · have hl := (containsKeyKV_iff_lookup ex k).mp hc
        rcases hlk : lookupKV ex k with _ | v
        · rw [hlk] at hl; simp at hl
        · simp [hc, hlk]
      · simp [hc]

/-- C9: the derived comparison on `Version` orders values of different
variants purely by variant declaration position — every `String` below
every `Float`, every `Float` below every `Int`, whatever the payloads
(e.g. `Int 1 > Float 999.0 > String "9999"`) — and values of different
variants are never equal. -/
theorem version_cross_variant_order (s : String) (f : F32) (i : Nat) :
    Version.pcmp (.string s) (.float f) = some .lt ∧
    Version.pcmp (.string s) (.int i) = some .lt ∧
    Version.pcmp (.float f) (.int i) = some .lt ∧
    Version.pcmp (.float f) (.string s) = some .gt ∧
    Version.pcmp (.int i) (.string s) = some .gt ∧
    Version.pcmp (.int i) (.float f) = some .gt ∧
    Version.pcmp (.int 1) (.float (.fin 999)) = some .gt ∧
    Version.pcmp (.float (.fin 999)) (.string "9999") = some .gt ∧
    Version.eqv (.string s) (.float f) = false ∧
    Version.eqv (.string s) (.int i) = false ∧
    Version.eqv (.float f) (.int i) = false ∧
    Version.eqv (.float f) (.string s) = false ∧
    Version.eqv (.int i) (.string s) = false ∧
    Version.eqv (.int i) (.float f) = false :=
  ⟨rfl, rfl, rfl, rfl, rfl, rfl, rfl, rfl, rfl, rfl, rfl, rfl, rfl, rfl⟩

/-- Mapping over a two-way `iproduct!` is the row-major double loop,
last list fastest. -/
theorem map_iproduct2 {α β γ : Type} (a : List α) (b : List β) (g : α × β → γ) :
    (iproduct2 a b).map g = a.flatMap fun i => b.map fun j => g (i, j) := by
  simp [iproduct2, List.map_flatMap, List.map_map, Function.comp_def]

/-- Mapping over a three-way `iproduct!` is the row-major triple loop. -/
theorem map_iproduct3 {α β γ δ : Type} (a : List α) (b : List β) (c : List γ)
    (g : α × β × γ → δ) :
    (iproduct3 a b c).map g = a.flatMap fun i => b.flatMap fun j => c.map fun k => g (i, j, k) := by
  simp [iproduct3, List.map_flatMap, List.map_map, Function.comp_def]

/-- When every loop iteration succeeds, the collecting loop returns
exactly the list of rendered rows. -/
theorem runRows_map_ok {α : Type} (l : List α) (g : α → String) :
    runRows (l.map fun x => some (.ok (g x))) = some (.ok (l.map g)) := by
  induction l with
  | nil => rfl
  | cons x xs ih => simp [runRows, ih]

/-- A two-dimensional nested-loop product has product length. -/
theorem length_prod2 {α β γ : Type} (l1 : List α) (l2 : List β) (f : α → β → γ) :
    (l1.flatMap fun i => l2.map fun j => f i j).length = l1.length * l2.length := by
  induction l1 with
  | nil => simp
  | cons x xs ih => simp [ih]; ring

/-- A three-dimensional nested-loop product has product length. -/
theorem length_prod3 {α β γ δ : Type} (l1 : List α) (l2 : List β) (l3 : List γ)
    (f : α → β → γ → δ) :
    (l1.flatMap fun i => l2.flatMap fun j => l3.map fun k => f i j k).length =
      l1.length * (l2.length * l3.length) := by
  induction l1 with
  | nil => simp
  | cons x xs ih =>
    simp only [List.flatMap_cons, List.length_append, ih, length_prod2, List.length_cons]
    ring

/-- Characterization of `Manifest::two` when the template compiles: the
row-major product of the two lists, each row rendered with `keys[0]`
bound to the first component's `Display` form and `keys[1]` to the
second's. -/
theorem two_ok (tmpl : String) (toks : List Tok) (k0 k1 : String) (ks : List String)
    (l1 l2 : List Version) (h : tokenize (stripRow tmpl).toList = some toks) :
    Manifest.two tmpl (k0 :: k1 :: ks) l1 l2 =
      some (.ok (l1.flatMap fun i => l2.map fun j =>
        renderToks toks (insertStr (insertStr [] k0 i.display) k1 j.display))) := by
  have hstep : rowStep2 tmpl (k0 :: k1 :: ks) = fun ij =>
      some (Except.ok (renderToks toks
        (insertStr (insertStr [] k0 ij.1.display) k1 ij.2.display))) := by
    funext ij
    unfold rowStep2
    simp only [List.getElem?_cons_zero, List.getElem?_cons_succ]
    unfold renderRow
    rw [h]
  unfold Manifest.two
  rw [hstep, runRows_map_ok (iproduct2 l1 l2) (fun ij =>
    renderToks toks (insertStr (insertStr [] k0 ij.1.display) k1 ij.2.display))]
  rw [map_iproduct2]

/-- Characterization of `Manifest::three` when the template compiles. -/
theorem three_ok (tmpl : String) (toks : List Tok) (k0 k1 k2 : String) (ks : List String)
    (l1 l2 l3 : List Version) (h : tokenize (stripRow tmpl).toList = some toks) :
    Manifest.three tmpl (k0 :: k1 :: k2 :: ks) l1 l2 l3 =
      some (.ok (l1.flatMap fun i => l2.flatMap fun j => l3.map fun k =>
        renderToks toks
          (insertStr (insertStr (insertStr [] k0 i.display) k1 j.display) k2 k.display))) := by
  have hstep : rowStep3 tmpl (k0 :: k1 :: k2 :: ks) = fun ijk =>
      some (Except.ok (renderToks toks
        (insertStr (insertStr (insertStr [] k0 ijk.1.display) k1 ijk.2.1.display) k2
          ijk.2.2.display))) := by
    funext ijk
    unfold rowStep3
    simp only [List.getElem?_cons_zero, List.getElem?_cons_succ]
    unfold renderRow
    rw [h]
  unfold Manifest.three
  rw [hstep, runRows_map_ok (iproduct3 l1 l2 l3) (fun ijk =>
    renderToks toks (insertStr (insertStr (insertStr [] k0 ijk.1.display) k1 ijk.2.1.display) k2
      ijk.2.2.display))]
  rw [map_iproduct3]

/-- C4: a 2- or 3-dimensional expansion whose template compiles returns
exactly the row-major cartesian product (last-listed dimension varying
fastest), one identifier per tuple — so product-many in total — and each
identifier is the stripped name template rendered with every dimension
key bound to the `Display` form of that dimension's value in the
tuple. -/
theorem matrix_product_expansion (tmpl : String) (toks : List Tok) (k0 k1 k2 : String)
    (ks : List String) (l1 l2 l3 : List Version)
    (h : tokenize (stripRow tmpl).toList = some toks) :
    (Manifest.two tmpl (k0 :: k1 :: ks) l1 l2 =
        some (.ok (l1.flatMap fun i => l2.map fun j =>
          renderToks toks (insertStr (insertStr [] k0 i.display) k1 j.display))) ∧
      ∀ out, Manifest.two tmpl (k0 :: k1 :: ks) l1 l2 = some (.ok out) →
        out.length = l1.length * l2.length) ∧
    (Manifest.three tmpl (k0 :: k1 :: k2 :: ks) l1 l2 l3 =
        some (.ok (l1.flatMap fun i => l2.flatMap fun j => l3.map fun k =>
          renderToks toks
            (insertStr (insertStr (insertStr [] k0 i.display) k1 j.display) k2 k.display))) ∧
      ∀ out, Manifest.three tmpl (k0 :: k1 :: k2 :: ks) l1 l2 l3 = some (.ok out) →
        out.length = l1.length * (l2.length * l3.length)) := by
  refine ⟨⟨two_ok tmpl toks k0 k1 ks l1 l2 h, ?_⟩,
    three_ok tmpl toks k0 k1 k2 ks l1 l2 l3 h, ?_⟩
  · intro out hout
    rw [two_ok tmpl toks k0 k1 ks l1 l2 h, Option.some.injEq, Except.ok.injEq] at hout
    rw [← hout, length_prod2]
  · intro out hout
    rw [three_ok tmpl toks k0 k1 k2 ks l1 l2 l3 h, Option.some.injEq, Except.ok.injEq] at hout
    rw [← hout, length_prod3]

/-- Witness for `matrix_product_expansion` at the spec's own example: a
2-dimensional matrix named `build-(row.os)-(row.arch)` over
`os = [linux, darwin]`, `arch = [amd64, arm64]` yields exactly the 4
combinations, `arch` varying fastest. -/
theorem matrix_product_expansion_witness :
    Manifest.two "build-{{row.os}}-{{row.arch}}" ["os", "arch"]
        [.string "linux", .string "darwin"] [.string "amd64", .string "arm64"] =
      some (.ok ["build-linux-amd64", "build-linux-arm64", "build-darwin-amd64",
        "build-darwin-arm64"]) := by
  have := (matrix_product_expansion "build-{{row.os}}-{{row.arch}}"
    [.text 'b', .text 'u', .text 'i', .text 'l', .text 'd', .text '-', .var "os", .text '-',
      .var "arch"] "os" "arch" "x" [] [.string "linux", .string "darwin"]
    [.string "amd64", .string "arm64"] [] rfl).1.1
  exact this

/-- `emptyManifest` with one matrix flavour whose hash map presents its
two dimensions in the order `a`, `b`. -/
def matrixManifestAB : Manifest :=
  { emptyManifest with
    flavours := some [.Matrix "{{row.a}}-{{row.b}}"
      [("a", [.int 1, .int 2]), ("b", [.string "x", .string "y"])]
      none none none none none none] }

/-- The same manifest as `matrixManifestAB` except that the hash map
presents the same two dimension entries in the order `b`, `a` — a
presentation Rust's `HashMap` is free to choose for the same document,
since its iteration order depends on the per-map hash seed. -/
def matrixManifestBA : Manifest :=
  { emptyManifest with
    flavours := some [.Matrix "{{row.a}}-{{row.b}}"
      [("b", [.string "x", .string "y"]), ("a", [.int 1, .int 2])]
      none none none none none none] }

/-- C3 counterexample: the two manifests hold the same matrix mapping —
their entry lists are permutations of each other — yet `flavors()`
returns differently ordered sequences, because the code uses the hash
map's presented iteration order rather than imposing a fixed one. -/
theorem flavors_key_order_counterexample :
    ([("a", [Version.int 1, Version.int 2]),
        ("b", [Version.string "x", Version.string "y"])] : ManifestBuildMatrix).Perm
      [("b", [Version.string "x", Version.string "y"]), ("a", [Version.int 1, Version.int 2])] ∧
    matrixManifestAB.flavors = some (.ok ["1-x", "1-y", "2-x", "2-y"]) ∧
    matrixManifestBA.flavors = some (.ok ["1-x", "2-x", "1-y", "2-y"]) ∧
    matrixManifestAB.flavors ≠ matrixManifestBA.flavors := by
  refine ⟨by decide, rfl, rfl, ?_⟩
  rw [show matrixManifestAB.flavors = some (.ok ["1-x", "1-y", "2-x", "2-y"]) from rfl,
    show matrixManifestBA.flavors = some (.ok ["1-x", "2-x", "1-y", "2-y"]) from rfl]
  simp

/-- C3 amended: within a single expansion the engine is internally
consistent — the one entry order the matrix presents is used both to
order the cartesian product (first entry outermost) and to bind the
template placeholders (`keys[0]` to the first entry's values, `keys[1]`
to the second's).  Output is thus a deterministic function of the
manifest as presented; it is only across re-parses, where the hash map
may present another order, that reproducibility fails. -/
theorem expand_uses_presented_key_order (tmpl : String) (toks : List Tok) (k0 k1 : String)
    (l0 l1 : List Version) (h : tokenize (stripRow tmpl).toList = some toks) :
    expandMatrix tmpl [(k0, l0), (k1, l1)] =
      some (.ok (l0.flatMap fun i => l1.map fun j =>
        renderToks toks (insertStr (insertStr [] k0 i.display) k1 j.display))) := by
  show Manifest.two tmpl [k0, k1] l0 l1 = _
  exact two_ok tmpl toks k0 k1 [] l0 l1 h

/-- Witness for `expand_uses_presented_key_order` on a concrete
1×1-valued two-dimensional matrix. -/
theorem expand_uses_presented_key_order_witness :
    expandMatrix "{{row.a}}-{{row.b}}" [("a", [Version.int 1]), ("b", [Version.int 2])] =
      some (.ok ["1-2"]) := by
  have := expand_uses_presented_key_order "{{row.a}}-{{row.b}}"
    [.var "a", .text '-', .var "b"] "a" "b" [.int 1] [.int 2] rfl
  exact this

/-- A manifest whose single flavour, named `"foo"`, is a matrix with
five dimensions. -/
def fiveDimManifest : Manifest :=
  { emptyManifest with
    flavours := some [.Matrix "foo"
      [("a", [.int 1]), ("b", [.int 1]), ("c", [.int 1]), ("d", [.int 1]), ("e", [.int 1])]
      none none none none none none] }

/-- `slice::starts_with` on character lists. -/
def startsWithL : List Char → List Char → Bool
  | _, [] => true
  | [], _ :: _ => false
  | c :: cs, p :: ps => c == p && startsWithL cs ps

/-- Substring containment on character lists: some suffix of the
haystack starts with the pattern. -/
def containsSubL (hay pat : List Char) : Bool :=
  hay.tails.any fun t => startsWithL t pat

/-- C5 counterexample: a five-dimensional matrix flavour named `"foo"`
makes `flavors()` fail with the fixed message
`Cannot expand template with more than four arguments`, which does not
contain the failing flavour's name anywhere. -/
theorem dimension_error_lacks_name :
    fiveDimManifest.flavors =
      some (.error "Cannot expand template with more than four arguments") ∧
    containsSubL "Cannot expand template with more than four arguments".toList "foo".toList
      = false :=
  ⟨rfl, by decide⟩

/-- C5 amended: a matrix flavour with zero or at least five dimensions
makes the expansion, the flavour loop from that flavour on, and the
whole `flavors()` call fail with the fixed error message `Cannot expand
template with more than four arguments` (which does not name the
flavour); the enumeration aborts there and no partial list is
returned. -/
theorem unsupported_dimensionality_error (name : String) (matrix : ManifestBuildMatrix)
    (rest : List Flavours) (rq lr tr br sr : Option RequirementMap)
    (sup : Option (List String)) (m : Manifest)
    (hdim : matrix.length = 0 ∨ 5 ≤ matrix.length)
    (hm : m.flavours = some (Flavours.Matrix name matrix rq lr tr br sr sup :: rest)) :
    expandMatrix name matrix =
      some (.error "Cannot expand template with more than four arguments") ∧
    flavoursLoop (Flavours.Matrix name matrix rq lr tr br sr sup :: rest) =
      some (.error "Cannot expand template with more than four arguments") ∧
    m.flavors = some (.error "Cannot expand template with more than four arguments") := by
  have h1 : expandMatrix name matrix =
      some (.error "Cannot expand template with more than four arguments") := by
    unfold expandMatrix
    rcases hdim with h | h
    · rw [List.length_map, h]
    · obtain ⟨k, hk⟩ : ∃ k, matrix.length = k + 5 := ⟨matrix.length - 5, by omega⟩
      rw [List.length_map, hk]
      split <;> first | rfl | omega
  have h2 : flavoursLoop (Flavours.Matrix name matrix rq lr tr br sr sup :: rest) =
      some (.error "Cannot expand template with more than four arguments") := by
    simp only [flavoursLoop]
    rw [h1]
  refine ⟨h1, h2, ?_⟩
  unfold Manifest.flavors
  rw [hm]
  simp only [Option.getD_some]
  rw [h2]

/-- Witness for `unsupported_dimensionality_error` at the concrete
five-dimensional manifest. -/
theorem unsupported_dimensionality_error_witness :
    expandMatrix "foo"
        [("a", [Version.int 1]), ("b", [Version.int 1]), ("c", [Version.int 1]),
          ("d", [Version.int 1]), ("e", [Version.int 1])] =
      some (.error "Cannot expand template with more than four arguments") :=
  (unsupported_dimensionality_error "foo"
    [("a", [Version.int 1]), ("b", [Version.int 1]), ("c", [Version.int 1]),
      ("d", [Version.int 1]), ("e", [Version.int 1])] [] none none none none none none
    fiveDimManifest (Or.inr (by decide)) rfl).1

/-- The ten decimal digit characters are digits. -/
theorem digitChar_isDigit : ∀ m < 10, (Nat.digitChar m).isDigit = true := by decide

/-- Decoding a decimal digit character recovers the digit. -/
theorem digitChar_toNat : ∀ m < 10, (Nat.digitChar m).toNat - 48 = m := by decide

/-- With sufficient fuel, the decimal rendering is a nonempty string of
digit characters. -/
theorem natToDigits_digits (fuel : Nat) :
    ∀ n, n < fuel →
      natToDigits fuel n ≠ [] ∧ (natToDigits fuel n).all (·.isDigit) = true := by
  induction fuel with
  | zero => intro n h; omega
  | succ f ih =>
    intro n h
    unfold natToDigits
    by_cases h10 : n < 10
    · refine ⟨by simp [h10], ?_⟩
      simp [h10, digitChar_isDigit n h10]
    · have hdiv : n / 10 < f := by
        have h1 : n / 10 < n := Nat.div_lt_self (by omega) (by omega)
        omega
      obtain ⟨ihne, ihall⟩ := ih (n / 10) hdiv
      refine ⟨by simp [h10], ?_⟩
      simp [h10, ihall, digitChar_isDigit (n % 10) (Nat.mod_lt _ (by omega))]

/-- The text of a decimal integer literal: nonempty and all digits. -/
def isIntChars (l : List Char) : Bool := !l.isEmpty && l.all (·.isDigit)

/-- Decimal decoding of a digit string. -/
def parseNatL (l : List Char) : Nat := l.foldl (fun a c => 10 * a + (c.toNat - 48)) 0

/-- Decimal decoding inverts decimal rendering. -/
theorem parseNatL_natToDigits (fuel : Nat) :
    ∀ n, n < fuel → parseNatL (natToDigits fuel n) = n := by
  induction fuel with
  | zero => intro n h; omega
  | succ f ih =>
    intro n h
    unfold natToDigits
    by_cases h10 : n < 10
    · simp [h10, parseNatL, digitChar_toNat n h10]
    · have hdiv : n / 10 < f := by
        have h1 : n / 10 < n := Nat.div_lt_self (by omega) (by omega)
        omega
      have hmod : n % 10 < 10 := Nat.mod_lt _ (by omega)
      have hih := ih (n / 10) hdiv
      unfold parseNatL at hih ⊢
      simp only [h10, if_neg, ite_false, List.foldl_append, List.foldl_cons, List.foldl_nil]
      rw [hih, digitChar_toNat (n % 10) hmod]
      omega

/-- The text of a decimal float literal: an optional leading minus sign,
then digits, one dot, digits. -/
def isFloatChars (l : List Char) : Bool :=
  match (if l.head? == some '-' then l.tail else l).splitOn '.' with
  | [a, b] => isIntChars a && isIntChars b
  | _ => false

/-- The value denoted by a decimal float literal. -/
def floatValChars (l : List Char) : F32 :=
  match (if l.head? == some '-' then l.tail else l).splitOn '.' with
  | [a, b] =>
    .fin ((if l.head? == some '-' then -1 else 1) *
      ((parseNatL a : ℚ) + (parseNatL b : ℚ) / (10 : ℚ) ^ b.length))
  | _ => .nan

/-- The scalar classification rule the source documents at
`src/manifest.rs` lines 17-23 (`7` is an int, `7.1` is a float, `7.3.2`
is a string): the integer pattern (within `u16` range) takes precedence,
then the float pattern, anything else is a string. -/
def classify (s : String) : Version :=
  if isIntChars s.toList && decide (parseNatL s.toList ≤ 65535) then .int (parseNatL s.toList)
  else if isFloatChars s.toList then .float (floatValChars s.toList)
  else .string s

/-- C7 counterexample: the claim fails on the `String` variant — the
value `String "7"` displays as `"7"`, which the variant-selection rule
re-classifies as `Int 7`, a different variant. -/
theorem display_string_reclassifies_int :
    Version.display (.string "7") = "7" ∧
    classify (Version.display (.string "7")) = .int 7 ∧
    classify (Version.display (.string "7")) ≠ .string "7" :=
  ⟨rfl, by decide, by decide⟩

/-- C7 amended: the display/re-classify round-trip holds for every
`Int` value (any `u16`), and for every `String` value whose text matches
neither the integer nor the float pattern; it fails for numeric-looking
strings (see the counterexample) and for `Float` values whose default
formatting drops the decimal point. -/
theorem display_classify_roundtrip (i : Nat) (s : String) (hi : i ≤ 65535)
    (hs1 : isIntChars s.toList = false) (hs2 : isFloatChars s.toList = false) :
    classify (Version.display (.int i)) = .int i ∧
    classify (Version.display (.string s)) = .string s := by
  constructor
  · show classify (natRepr i) = .int i
    unfold classify
    have hlist : (natRepr i).toList = natToDigits (i + 1) i := rfl
    obtain ⟨hne, hall⟩ := natToDigits_digits (i + 1) i (by omega)
    have hparse : parseNatL (natToDigits (i + 1) i) = i := parseNatL_natToDigits (i + 1) i (by omega)
    rw [hlist, hparse]
    simp [isIntChars, hall, hne, hi]
  · show classify s = .string s
    unfold classify
    rw [hs1, hs2]
    rfl

/-- Witness for `display_classify_roundtrip` at `Int 7` and
`String "v1"`. -/
theorem display_classify_roundtrip_witness :
    classify (Version.display (.int 7)) = .int 7 ∧
    classify (Version.display (.string "v1")) = .string "v1" :=
  display_classify_roundtrip 7 "v1" (by decide) (by decide) (by decide)

/-- A structured YAML-like document value, covering what the manifest
schema needs: scalars, sequences and string-keyed mappings.  Anchors,
tags, non-string keys and out-of-range integers are beyond what the
claims exercise. -/
inductive Yaml where
  | str (s : String)
  | int (n : Nat)
  | float (f : F32)
  | bool (b : Bool)
  | seq (items : List Yaml)
  | map (entries : List (String × Yaml))

/-- Deserialize a plain string scalar. -/
def asStr : Yaml → Option String
  | .str s => some s
  | _ => none

/-- Deserialize an untagged `Version` scalar, following the
classification the source documents (lines 17-23): an integer scalar is
`Int` (within `u16` range), a float scalar is `Float`, a string scalar
is `String`; anything else fails. -/
def parseVersionY : Yaml → Option Version
  | .str s => some (.string s)
  | .int n => if n ≤ 65535 then some (.int n) else none
  | .float f => some (.float f)
  | _ => none

/-- Deserialize a `Vec<String>`. -/
def parseStringListY : Yaml → Option (List String)
  | .seq items => items.mapM asStr
  | _ => none

/-- Deserialize a `RequirementMap`. -/
def parseReqMapY : Yaml → Option RequirementMap
  | .map entries => entries.mapM fun kv => (parseVersionY kv.2).map (fun v => (kv.1, v))
  | _ => none

/-- Deserializing a struct field of type `Option<T>`: an absent key is
`None`; a present key must deserialize as `T` or the whole struct
fails. -/
def optField {β : Type} (entries : List (String × Yaml)) (key : String)
    (p : Yaml → Option β) : Option (Option β) :=
  match lookupKV entries key with
  | none => some none
  | some v => (p v).map some

/-- Deserializing a required struct field: the key must be present and
its value must deserialize. -/
def reqField {β : Type} (entries : List (String × Yaml)) (key : String)
    (p : Yaml → Option β) : Option β :=
  match lookupKV entries key with
  | none => none
  | some v => p v

/-- Deserialize a `RecipeInner` (lines 47-54): a mapping whose four
fields are all optional; unknown keys are ignored. -/
def parseRecipeInnerY : Yaml → Option RecipeInner
  | .map entries => do
    let rq ← optField entries "requires" parseReqMapY
    let lr ← optField entries "loadRequires" parseReqMapY
    let st ← optField entries "steps" parseStringListY
    let co ← optField entries "contributors" parseStringListY
    pure ⟨rq, lr, st, co⟩
  | _ => none

/-- Deserialize a `RecipeMap`: a mapping from recipe name to
`RecipeInner`. -/
def parseRecipeMapY : Yaml → Option RecipeMap
  | .map entries => entries.mapM fun kv => (parseRecipeInnerY kv.2).map (fun r => (kv.1, r))
  | _ => none

/-- Deserialize a `ManifestBuildMatrix`: a mapping from dimension name
to a sequence of `Version` scalars. -/
def parseMatrixY : Yaml → Option ManifestBuildMatrix
  | .map entries => entries.mapM fun kv =>
    match kv.2 with
    | .seq items => (items.mapM parseVersionY).map (fun vs => (kv.1, vs))
    | _ => none
  | _ => none

/-- Attempt the `Recipe` shape of the untagged `Flavours` enum (lines
80-94): `name` and `recipes` required, everything else optional.
Unknown keys are ignored, which is how serde deserializes the struct
variants of an untagged enum. -/
def tryRecipe (entries : List (String × Yaml)) : Option Flavours := do
  let name ← reqField entries "name" asStr
  let recipes ← reqField entries "recipes" parseRecipeMapY
  let lr ← optField entries "loadRequires" parseReqMapY
  let br ← optField entries "buildRequires" parseReqMapY
  let tr ← optField entries "testRequires" parseReqMapY
  let sr ← optField entries "systemRequires" parseReqMapY
  let sup ← optField entries "supports" parseStringListY
  let plat ← optField entries "platforms" parseStringListY
  let sites ← optField entries "sites" parseStringListY
  pure (.Recipe name recipes lr br tr sr sup plat sites)

/-- Attempt the `Simple` shape (lines 95-108): only `name` required;
unknown keys — including a `matrix` key — are ignored. -/
def trySimple (entries : List (String × Yaml)) : Option Flavours := do
  let name ← reqField entries "name" asStr
  let lr ← optField entries "loadRequires" parseReqMapY
  let br ← optField entries "buildRequires" parseReqMapY
  let tr ← optField entries "testRequires" parseReqMapY
  let sr ← optField entries "systemRequires" parseReqMapY
  let sup ← optField entries "supports" parseStringListY
  let plat ← optField entries "platforms" parseStringListY
  let sites ← optField entries "sites" parseStringListY
  pure (.Simple name lr br tr sr sup plat sites)

/-- Attempt the `Matrix` shape (lines 109-122): `name` and `matrix`
required, everything else optional; unknown keys are ignored. -/
def tryMatrix (entries : List (String × Yaml)) : Option Flavours := do
  let name ← reqField entries "name" asStr
  let matrix ← reqField entries "matrix" parseMatrixY
  let rq ← optField entries "requires" parseReqMapY
  let lr ← optField entries "loadRequires" parseReqMapY
  let tr ← optField entries "testRequires" parseReqMapY
  let br ← optField entries "buildRequires" parseReqMapY
  let sr ← optField entries "systemRequires" parseReqMapY
  let sup ← optField entries "supports" parseStringListY
  pure (.Matrix name matrix rq lr tr br sr sup)

/-- serde's untagged resolution for `Flavours` (line 78): try the
variants against the buffered document in declaration order — `Recipe`,
then `Simple`, then `Matrix` — first success wins. -/
def parseFlavour : Yaml → Option Flavours
  | .map entries => tryRecipe entries <|> trySimple entries <|> tryMatrix entries
  | _ => none

/-- A flavour document carrying both a `recipes` and a `matrix` field. -/
def recipeAndMatrixDoc : Yaml :=
  .map [("name", .str "f"), ("recipes", .map [("build", .map [])]),
    ("matrix", .map [("os", .seq [.str "linux"])])]

/-- A flavour document declaring a `matrix` mapping and no `recipes`. -/
def matrixOnlyDoc : Yaml :=
  .map [("name", .str "mflav"), ("matrix", .map [("os", .seq [.str "linux"])])]

/-- C2: the first half of the claim holds — a flavour entry with both
`recipes` and `matrix` deterministically resolves to the `Recipe` shape
(the `matrix` key is ignored as unknown).  The second half fails: an
entry with a `matrix` mapping and no `recipes` resolves to the `Simple`
shape, not `Matrix`, because `Simple` requires only `name`, ignores the
unknown `matrix` key, and is tried before `Matrix`; the `Matrix` arm of
`flavors()` is therefore unreachable from parsed documents. -/
theorem flavour_untagged_resolution :
    parseFlavour recipeAndMatrixDoc =
      some (.Recipe "f" [("build", ⟨none, none, none, none⟩)]
        none none none none none none none) ∧
    parseFlavour matrixOnlyDoc = some (.Simple "mflav" none none none none none none none) ∧
    parseFlavour matrixOnlyDoc ≠
      some (.Matrix "mflav" [("os", [.string "linux"])] none none none none none none) := by
  refine ⟨rfl, rfl, ?_⟩
  rw [show parseFlavour matrixOnlyDoc =
    some (.Simple "mflav" none none none none none none none) from rfl]
  simp
